import Mathlib

/-
Verification of the build-orchestration core of builder_parallel.py
(class UniversalBuilder): content-addressed build cache, fingerprint
engine, process runner and the mixed-language dispatcher.

Modelling conventions:
- A filesystem path is a String.  The OS canonicalisation performed by
  Path.resolve() is an environment function resolve : String → String;
  every filesystem access at a path p consults fs (resolve p), where
  fs : String → Option String maps a canonical path to the file contents
  (none = the file does not exist).
- SHA-256 (hashlib.sha256) is an external primitive, modelled as an
  arbitrary function sha256 : String → String carried by the environment.
  hashlib incremental updates followed by hexdigest over a sequence of
  chunks are the hash of the concatenation of the chunks.
- subprocess.run is an external primitive modelled as an oracle
  subprocess : command → cwd → timeout → SubpOutcome, where SubpOutcome
  distinguishes normal completion, subprocess.TimeoutExpired, and any
  other spawn-level exception (caught by the bare except in
  _run_command).
- The in-memory cache index (self.cache_index, a Python dict) is a
  function String → Option CacheRecord; the persisted index file
  (.builder_cache/index.json) is modelled by its parsed contents
  saved_index : Option (String → Option CacheRecord) (none = file
  absent).  json serialisation is injective so nothing is lost by
  storing the map itself.
- datetime.now().isoformat() is the environment string nowStr.
- Python list indexing src_paths[0] is modelled with List.headD: every
  call site in the source reaches it only with a nonempty list (the
  dispatcher builds nonempty groups); on [] the source would raise
  IndexError, which no claim exercises.
-/

/-! ## String and path utilities (models of str/pathlib primitives) -/

/-- Splits a character list at every occurrence of the separator,
keeping empty segments, like Python str.split. -/
def splitOnCharAux (c : Char) : List Char → List Char → List (List Char)
  | [], acc => [acc.reverse]
  | d :: ds, acc =>
    if d = c then acc.reverse :: splitOnCharAux c ds []
    else splitOnCharAux c ds (d :: acc)

def splitOnChar (c : Char) (cs : List Char) : List (List Char) :=
  splitOnCharAux c cs []

def joinWithChar (c : Char) : List (List Char) → List Char
  | [] => []
  | [x] => x
  | x :: xs => x ++ c :: joinWithChar c xs

/-- Model of pathlib Path.name: the final path component. -/
def pathName (p : String) : String :=
  ⟨(splitOnChar '/' p.data).getLastD []⟩

/-- Model of pathlib Path.parent for the absolute paths the source
passes (all call sites resolve their inputs first). -/
def pathParent (p : String) : String :=
  ⟨joinWithChar '/' ((splitOnChar '/' p.data).dropLast)⟩

/-- Model of pathlib Path division: parent / name. -/
def pathJoin (d f : String) : String := d ++ "/" ++ f

/-- Model of pathlib Path.stem: the final component without its last
suffix (a lone leading dot is not a suffix). -/
def pathStem (p : String) : String :=
  let n := (splitOnChar '/' p.data).getLastD []
  match splitOnChar '.' n with
  | [] => ⟨n⟩
  | [_] => ⟨n⟩
  | [[], _] => ⟨n⟩
  | parts => ⟨joinWithChar '.' parts.dropLast⟩

/-- Model of pathlib Path.suffix: the last dot-suffix of the final
component, including the dot (a lone leading dot is not a suffix). -/
def pathSuffix (p : String) : String :=
  let n := (splitOnChar '/' p.data).getLastD []
  match splitOnChar '.' n with
  | [] => ""
  | [_] => ""
  | [[], _] => ""
  | parts => ⟨'.' :: parts.getLastD []⟩

/-- Model of str.lower restricted to the ASCII extension strings the
source compares against. -/
def strToLower (s : String) : String := ⟨s.data.map Char.toLower⟩

/-- Lexicographic comparison of character lists, the order Python uses
to compare strings. -/
def charListLe : List Char → List Char → Bool
  | [], _ => true
  | _ :: _, [] => false
  | c :: cs, d :: ds =>
    if c < d then true
    else if d < c then false
    else charListLe cs ds

def strLe (x y : String) : Bool := charListLe x.data y.data

/-- Stable insertion step of the model of Python sorted(..., key=...):
an element goes before the first strictly larger key and after equal
keys, preserving input order among equals. -/
def insertByKey {α : Type} (key : α → String) (x : α) : List α → List α
  | [] => [x]
  | y :: ys =>
    if strLe (key x) (key y) then x :: y :: ys
    else y :: insertByKey key x ys

/-- Model of Python sorted(l, key=key): a stable sort, ascending in the
string key. -/
def pySorted {α : Type} (key : α → String) (l : List α) : List α :=
  l.foldr (insertByKey key) []

/-- Model of Python str() applied to a list of strings, as used for the
cache-key base: the exact text only matters up to injectivity in the
listed elements. -/
def pyStrList (xs : List String) : String :=
  "[" ++ String.join (List.intersperse ", " (xs.map (fun s => "\x27" ++ s ++ "\x27"))) ++ "]"

/-! ## Environment and builder state -/

/-- Outcome of one subprocess.run invocation, as observed by the
try/except in _run_command: normal completion with a returncode and the
captured streams, subprocess.TimeoutExpired, or any other exception
(spawn failure etc.) carrying its message str(e). -/
inductive SubpOutcome : Type
  | completed (returncode : Int) (stdout stderr : String)
  | timedOut
  | failed (msg : String)

/-- External world of one builder run: platform, path resolution, file
contents, the hash primitive, the clock, the subprocess oracle and the
MSVC locator. -/
structure Env : Type where
  systemIsWindows : Bool
  resolve : String → String
  fs : String → Option String
  sha256 : String → String
  nowStr : String
  subprocess : String → Option String → Nat → SubpOutcome
  vcvars : Option String

/-- Model of Path.exists(): the source only applies it to paths that
are already resolved or that come from a stored absolute record. -/
def pathExists (env : Env) (p : String) : Bool :=
  (env.fs (env.resolve p)).isSome

/-- One persisted cache record, the value stored in the index for one
cache key (fields hash, exe_path, timestamp, files of _update_cache). -/
structure CacheRecord : Type where
  hash : String
  exe_path : String
  timestamp : String
  files : List String
deriving DecidableEq

/-- The in-memory cache index self.cache_index. -/
def CacheIndex : Type := String → Option CacheRecord

/-- Mutable state of one UniversalBuilder instance, restricted to the
fields the verified core reads or writes. -/
structure BuilderState : Type where
  cache_enabled : Bool
  parallel_enabled : Bool
  python_interpreter : String
  cache_index : CacheIndex
  saved_index : Option CacheIndex

/-! ## Fingerprint engine and build cache -/

/-- Model of _compute_file_hash: SHA-256 of the file contents; none
models the FileNotFoundError that _compute_files_hash catches. -/
def _compute_file_hash (env : Env) (p : String) : Option String :=
  (env.fs (env.resolve p)).map env.sha256

/-- Model of _compute_files_hash: the per-file hashes are folded into
one digest in the order of the paths sorted by str(p.resolve()); a
missing file is skipped and the fold continues. -/
def _compute_files_hash (env : Env) (file_paths : List String) : String :=
  let sortedPaths := pySorted (fun p => env.resolve p) file_paths
  let hashes := sortedPaths.filterMap (fun p => _compute_file_hash env p)
  env.sha256 (String.join hashes)

/-- Model of str(sorted([str(f.resolve()) for f in file_paths])), the
input-set half of a cache key. -/
def cacheKeyBase (env : Env) (file_paths : List String) : String :=
  pyStrList (pySorted (fun s => s) (file_paths.map env.resolve))

/-- The full cache-key string name::base shared by _is_cached (name =
exe_name argument) and _update_cache (name = exe_path.name). -/
def cacheKey (env : Env) (file_paths : List String) (name : String) : String :=
  name ++ "::" ++ cacheKeyBase env file_paths

/-- Model of _is_cached: false when caching is disabled; otherwise the
record is looked up under the key, the digest is recomputed and
compared, and the recorded artifact path is checked for existence. -/
def _is_cached (env : Env) (s : BuilderState) (file_paths : List String)
    (exe_name : String) : Bool :=
  if s.cache_enabled = false then false
  else
    match s.cache_index (cacheKey env file_paths exe_name) with
    | none => false
    | some info =>
      if info.hash = _compute_files_hash env file_paths then
        pathExists env info.exe_path
      else false

/-- Model of _save_cache_index: early return when caching is disabled,
otherwise the whole current in-memory index is written to the index
file (the success path of the json.dump try block). -/
def _save_cache_index (s : BuilderState) : BuilderState :=
  if s.cache_enabled = false then s
  else { s with saved_index := some s.cache_index }

/-- The record _update_cache stores: recomputed digest over the current
file contents, the artifact path, the timestamp, the file list. -/
def mkRecord (env : Env) (file_paths : List String) (exe_path : String) : CacheRecord :=
  { hash := _compute_files_hash env file_paths
    exe_path := exe_path
    timestamp := env.nowStr
    files := file_paths }

/-- Model of _update_cache: early return when caching is disabled,
otherwise one entry keyed by exe_path.name and the sorted resolved
inputs is written into the in-memory index and the whole index is
persisted. -/
def _update_cache (env : Env) (s : BuilderState) (file_paths : List String)
    (exe_path : String) : BuilderState :=
  if s.cache_enabled = false then s
  else
    let key := cacheKey env file_paths (pathName exe_path)
    let r := mkRecord env file_paths exe_path
    _save_cache_index
      { s with cache_index := fun q => if q = key then some r else s.cache_index q }

/-- Validity of a cache key written following the words of the spec
(section 4.2): false if no record exists for the key; false if the
recorded artifact path no longer exists; false if the recomputed digest
over the current input files differs from the stored digest; true
otherwise.  Compared against _is_cached, which is translated from the
source. -/
def isValidSpec (env : Env) (s : BuilderState) (file_paths : List String)
    (exe_name : String) : Bool :=
  match s.cache_index (cacheKey env file_paths exe_name) with
  | none => false
  | some info =>
    if pathExists env info.exe_path = false then false
    else if info.hash ≠ _compute_files_hash env file_paths then false
    else true

/-! ## Process runner -/

/-- The synthetic stderr text of the subprocess.TimeoutExpired branch
of _run_command. -/
def timeoutMessage : String :=
  "Timeout: il comando ha impiegato più di 5 minuti."

/-- The text the generic except branch of _run_command puts in front of
str(e) in the stderr slot. -/
def spawnErrorText : String :=
  "Errore imprevisto durante l\x27esecuzione: "

/-- Model of _run_command: one subprocess.run call with shell=True,
captured output, the fixed 300-second timeout and an explicit working
directory, wrapped so that a timeout or any other exception becomes a
synthetic (1, empty, message) triple instead of propagating. -/
def _run_command (env : Env) (cmd : String) (cwd : Option String) :
    Int × String × String :=
  match env.subprocess cmd cwd 300 with
  | .completed c o e => (c, o, e)
  | .timedOut => (1, "", timeoutMessage)
  | .failed msg => (1, "", spawnErrorText ++ msg)

/-- Model of _run_cached: execute the cached artifact by name in its
own directory. -/
def _run_cached (env : Env) (exe_path : String) : Int × String × String :=
  let runCmd :=
    if env.systemIsWindows then ".\\" ++ pathName exe_path
    else "./" ++ pathName exe_path
  _run_command env runCmd (some (pathParent exe_path))

/-! ## Single-toolchain build lanes -/

def MSVC_CPP_FLAGS : String := "/O2 /MD /std:c++14 /EHsc"

def GCC_CPP_FLAGS : String := "-O3 -Wall -std=c++14"

/-- Model of _get_cpp_build_command: the platform compile line; none
models the FileNotFoundError path when vcvars64.bat cannot be found. -/
def _get_cpp_build_command (env : Env) (src_paths : List String)
    (exe_name : String) : Option String :=
  let src_files :=
    String.join (List.intersperse " "
      (src_paths.map (fun p => "\"" ++ pathName p ++ "\"")))
  if env.systemIsWindows then
    match env.vcvars with
    | some v =>
      some ("call \"" ++ v ++ "\" && cl " ++ MSVC_CPP_FLAGS ++ " " ++
        src_files ++ " /Fe\"" ++ exe_name ++ "\"")
    | none => none
  else
    some ("g++ " ++ GCC_CPP_FLAGS ++ " " ++ src_files ++ " -o \"" ++
      exe_name ++ "\"")

/-- Model of _compile_cpp_files: build the command and run it in the
given working directory; true exactly when the compiler exited 0. -/
def _compile_cpp_files (env : Env) (src_paths : List String)
    (exe_name : String) (cwd : String) : Bool :=
  match _get_cpp_build_command env src_paths exe_name with
  | none => false
  | some build_cmd => (_run_command env build_cmd (some cwd)).1 == 0

/-- Default executable name for a source file: its stem, with .exe
appended on Windows. -/
def defaultExeName (env : Env) (src0 : String) : String :=
  pathStem src0 ++ (if env.systemIsWindows then ".exe" else "")

/-- Model of build_and_run_cpp: resolve the sources, bail out when one
is missing, serve a valid cache hit by running the cached artifact,
otherwise compile, record the build in the cache, and only then run the
produced executable.  Returns the success flag together with the
builder state after the call. -/
def build_and_run_cpp (env : Env) (s : BuilderState) (src_files : List String)
    (en : Option String) : Bool × BuilderState :=
  let src_paths := src_files.map env.resolve
  if src_paths.all (pathExists env) then
    let src0 := src_paths.headD ""
    let exe_name := en.getD (defaultExeName env src0)
    let exe_path := pathJoin (pathParent src0) exe_name
    let build_cwd := pathParent src0
    if _is_cached env s src_paths exe_name then
      ((_run_cached env exe_path).1 == 0, s)
    else
      if _compile_cpp_files env src_paths exe_name build_cwd then
        let s2 := _update_cache env s src_paths exe_path
        let runCmd :=
          (if env.systemIsWindows then ".\\" else "./") ++ exe_name
        ((_run_command env runCmd (some build_cwd)).1 == 0, s2)
      else (false, s)
  else (false, s)

/-- Model of build_and_run_rust: single-file rustc lane; resolve, bail
out when missing, serve a valid cache hit, otherwise compile with the
optimization flag, record the build in the cache on compiler success,
and only then run the produced executable. -/
def build_and_run_rust (env : Env) (s : BuilderState) (src_file : String)
    (en : Option String) (optimization : String) : Bool × BuilderState :=
  let src_path := env.resolve src_file
  if pathExists env src_path then
    let exe_name := en.getD (defaultExeName env src_path)
    let exe_path := pathJoin (pathParent src_path) exe_name
    let build_cwd := pathParent src_path
    if _is_cached env s [src_path] exe_name then
      ((_run_cached env exe_path).1 == 0, s)
    else
      let opt_flags :=
        if optimization = "release" then "-C opt-level=3" else ""
      let build_cmd :=
        "rustc " ++ opt_flags ++ " \"" ++ pathName src_path ++ "\" -o \"" ++
          exe_name ++ "\""
      if (_run_command env build_cmd (some build_cwd)).1 == 0 then
        let s2 := _update_cache env s [src_path] exe_path
        let runCmd :=
          (if env.systemIsWindows then ".\\" else "./") ++ exe_name
        ((_run_command env runCmd (some build_cwd)).1 == 0, s2)
      else (false, s)
  else (false, s)

/-- Model of _compile_java_files: one javac invocation over the quoted
file names in the given working directory. -/
def _compile_java_files (env : Env) (src_paths : List String) (cwd : String) : Bool :=
  let src_files :=
    String.join (List.intersperse " "
      (src_paths.map (fun p => "\"" ++ pathName p ++ "\"")))
  (_run_command env ("javac " ++ src_files) (some cwd)).1 == 0

/-- Model of build_and_run_java: compile then run the class of the
first file; this lane performs no cache operations. -/
def build_and_run_java (env : Env) (s : BuilderState) (src_files : List String) :
    Bool × BuilderState :=
  let src_paths := src_files.map env.resolve
  if src_paths.all (pathExists env) then
    let main_file := src_paths.headD ""
    let classname := pathStem main_file
    let build_cwd := pathParent main_file
    if _compile_java_files env src_paths build_cwd then
      ((_run_command env ("java " ++ classname) (some build_cwd)).1 == 0, s)
    else (false, s)
  else (false, s)

/-- Model of build_and_run_python: run the first script with the
configured interpreter; this lane performs no cache operations. -/
def build_and_run_python (env : Env) (s : BuilderState) (py_files : List String) :
    Bool × BuilderState :=
  let py_paths := py_files.map env.resolve
  if py_paths.all (pathExists env) then
    let main_file := py_paths.headD ""
    let build_cwd := pathParent main_file
    let runCmd :=
      "\"" ++ s.python_interpreter ++ "\" \"" ++ pathName main_file ++ "\""
    ((_run_command env runCmd (some build_cwd)).1 == 0, s)
  else (false, s)

/-! ## Dispatcher -/

/-- The four toolchain tags EXTENSION_MAP can produce. -/
inductive Lang : Type
  | cpp
  | java
  | rust
  | python
deriving DecidableEq

/-- Model of EXTENSION_MAP lookup on an (already lowercased) suffix. -/
def EXTENSION_MAP (suffix : String) : Option Lang :=
  if suffix = ".cpp" ∨ suffix = ".cc" ∨ suffix = ".cxx" then some Lang.cpp
  else if suffix = ".java" then some Lang.java
  else if suffix = ".rs" then some Lang.rust
  else if suffix = ".py" then some Lang.python
  else none

/-- One step of the defaultdict grouping: append the file to its
language group, creating the group at the end on first appearance,
exactly the insertion-order behaviour of a Python dict. -/
def addToGroup (groups : List (Lang × List String)) (l : Lang) (f : String) :
    List (Lang × List String) :=
  match groups with
  | [] => [(l, [f])]
  | (l2, fs) :: rest =>
    if l2 = l then (l2, fs ++ [f]) :: rest
    else (l2, fs) :: addToGroup rest l f

/-- Model of _group_files_by_language: partition the (resolved) paths
by the language of their lowercased suffix; a file with an unrecognized
extension is skipped with a warning. -/
def _group_files_by_language (paths : List String) : List (Lang × List String) :=
  paths.foldl
    (fun gs p =>
      match EXTENSION_MAP (strToLower (pathSuffix p)) with
      | some l => addToGroup gs l p
      | none => gs)
    []

/-- The per-language call the sequential loop of
_build_and_run_mixed_sequential performs (rust receives only
files[0]). -/
def dispatchLane (env : Env) (s : BuilderState) (lang : Lang)
    (files : List String) : Bool × BuilderState :=
  match lang with
  | .cpp => build_and_run_cpp env s files none
  | .java => build_and_run_java env s files
  | .rust => build_and_run_rust env s (files.headD "") none "release"
  | .python => build_and_run_python env s files

/-- The per-language closure _build_and_run_mixed_parallel submits to
the ThreadPoolExecutor (rust receives only files[0], with the literal
release optimization argument). -/
def parallelSubmittedTask (env : Env) (s : BuilderState) (lang : Lang)
    (files : List String) : Bool × BuilderState :=
  match lang with
  | .cpp => build_and_run_cpp env s files none
  | .java => build_and_run_java env s files
  | .rust => build_and_run_rust env s (files.headD "") none "release"
  | .python => build_and_run_python env s files

/-- Model of _print_mixed_results: the running all_success flag is
cleared by every failed lane and returned. -/
def _print_mixed_results (results : List (Lang × Bool)) : Bool :=
  results.foldl (fun all_success r => if r.2 = false then false else all_success) true

/-- Model of _build_and_run_mixed_sequential: one dispatch per group in
group order, threading the builder state (the shared self) through the
lanes; the results dict maps each language to its outcome. -/
def _build_and_run_mixed_sequential (env : Env) (s : BuilderState) :
    List (Lang × List String) → List (Lang × Bool) × BuilderState
  | [] => ([], s)
  | (lang, files) :: rest =>
    let r1 := dispatchLane env s lang files
    let r2 := _build_and_run_mixed_sequential env r1.2 rest
    ((lang, r1.1) :: r2.1, r2.2)

/-- What a submitted future delivers to as_completed: a normal boolean
result, or an exception raised inside the lane. -/
inductive LaneResult : Type
  | ok (b : Bool)
  | exn (msg : String)

/-- The boolean the as_completed loop stores for a lane: the future
result, with an exception converted to a recorded failure. -/
def laneBool : LaneResult → Bool
  | .ok b => b
  | .exn _ => false

/-- Abstraction of the ThreadPoolExecutor run of one mixed parallel
call: the order in which as_completed yields the futures, and the value
each future delivers.  Both are unconstrained because lane completion
order and lane outcomes under concurrent interleaving are
non-deterministic. -/
structure Sched : Type where
  order : List Lang
  laneResult : Lang → LaneResult

/-- Model of _build_and_run_mixed_parallel: one result entry per
completed future in completion order (an exception becoming False), and
the joined flag from _print_mixed_results. -/
def _build_and_run_mixed_parallel (sched : Sched) :
    List (Lang × Bool) × Bool :=
  let results := sched.order.map (fun l => (l, laneBool (sched.laneResult l)))
  (results, _print_mixed_results results)

/-- Model of build_and_run_mixed: resolve all inputs, return False for
the whole call as soon as any input file is missing (before any lane is
formed), otherwise group by language and run the groups in parallel
(when enabled and more than one group exists) or sequentially.  The
returned list is the results mapping handed to _print_mixed_results
(empty in the early missing-file return, where no lane runs). -/
def build_and_run_mixed (env : Env) (sched : Sched) (s : BuilderState)
    (file_paths : List String) (parallel : Option Bool) :
    List (Lang × Bool) × Bool :=
  let resolved := file_paths.map env.resolve
  if resolved.all (pathExists env) then
    let groups := _group_files_by_language resolved
    let use_parallel := parallel.getD s.parallel_enabled
    if use_parallel && decide (groups.length > 1) then
      _build_and_run_mixed_parallel sched
    else
      let r := _build_and_run_mixed_sequential env s groups
      (r.1, _print_mixed_results r.1)
  else ([], false)

/-! ## General helper lemmas -/

theorem charListLe_total : ∀ xs ys : List Char,
    charListLe xs ys = true ∨ charListLe ys xs = true := by
  intro xs
  induction xs with
  | nil => intro ys; left; rfl
  | cons c cs ih =>
    intro ys
    cases ys with
    | nil => right; rfl
    | cons d ds =>
      by_cases h1 : c < d
      · left; simp [charListLe, h1]
      · by_cases h2 : d < c
        · right; simp [charListLe, h2]
        · rcases ih ds with h | h
          · left; simp [charListLe, h1, h2, h]
          · right; simp [charListLe, h1, h2, h]

theorem charListLe_antisymm : ∀ xs ys : List Char,
    charListLe xs ys = true → charListLe ys xs = true → xs = ys := by
  intro xs
  induction xs with
  | nil =>
    intro ys _ h2
    cases ys with
    | nil => rfl
    | cons d ds => simp [charListLe] at h2
  | cons c cs ih =>
    intro ys h1 h2
    cases ys with
    | nil => simp [charListLe] at h1
    | cons d ds =>
      by_cases hcd : c < d
      · simp [charListLe, hcd, lt_asymm hcd] at h2
      · by_cases hdc : d < c
        · simp [charListLe, hcd, hdc] at h1
        · have hc : c = d := le_antisymm (le_of_not_lt hdc) (le_of_not_lt hcd)
          subst hc
          simp [charListLe, hcd, hdc] at h1 h2
          rw [ih ds h1 h2]

theorem strLe_total (x y : String) : strLe x y = true ∨ strLe y x = true :=
  charListLe_total x.data y.data

theorem strLe_antisymm (x y : String) (h1 : strLe x y = true)
    (h2 : strLe y x = true) : x = y := by
  cases x with
  | mk xs =>
    cases y with
    | mk ys => exact congrArg String.mk (charListLe_antisymm xs ys h1 h2)

/-- String append cancels on the right (needed for key disjointness of
distinct artifact names). -/
theorem strAppend_cancel_right (a b c : String) (h : a ++ c = b ++ c) :
    a = b := by
  cases a with
  | mk as =>
    cases b with
    | mk bs =>
      cases c with
      | mk cs =>
        have hd : as ++ cs = bs ++ cs := congrArg String.data h
        exact congrArg String.mk (List.append_cancel_right hd)

/-- The fold of _print_mixed_results is the conjunction of the collected
lane flags. -/
theorem print_foldl_eq_all : ∀ (l : List (Lang × Bool)) (b : Bool),
    l.foldl (fun all_success r => if r.2 = false then false else all_success) b =
      (b && l.all (fun r => r.2)) := by
  intro l
  induction l with
  | nil => intro b; simp
  | cons x xs ih =>
    intro b
    rw [List.foldl_cons, ih, List.all_cons]
    cases hx : x.2 <;> cases b <;> simp [hx]

theorem print_mixed_results_eq_all (l : List (Lang × Bool)) :
    _print_mixed_results l = l.all (fun r => r.2) := by
  rw [_print_mixed_results, print_foldl_eq_all]
  simp

/-- Mapping then testing all is testing all of the composite. -/
theorem all_map_gen {A B : Type} (f : A -> B) (p : B -> Bool) : forall l : List A,
    (l.map f).all p = l.all (fun a => p (f a)) := by
  intro l
  induction l with
  | nil => rfl
  | cons x xs ih => simp [List.all_cons, ih]

/-- A permutation does not change the conjunction of a boolean
predicate over a list. -/
theorem perm_all {α : Type} (f : α → Bool) {l1 l2 : List α}
    (h : List.Perm l1 l2) : l1.all f = l2.all f := by
  induction h with
  | nil => rfl
  | cons x _ ih => simp [List.all_cons, ih]
  | swap x y l => simp [List.all_cons, Bool.and_left_comm, Bool.and_comm]
  | trans _ _ ih1 ih2 => rw [ih1, ih2]

/-- The language tags of the sequential results are the group tags in
group order. -/
theorem seq_results_fst : ∀ (groups : List (Lang × List String)) (env : Env)
    (s : BuilderState),
    ((_build_and_run_mixed_sequential env s groups).1).map Prod.fst =
      groups.map Prod.fst := by
  intro groups
  induction groups with
  | nil => intro env s; rfl
  | cons g rest ih =>
    intro env s
    cases g with
    | mk lang files =>
      simp [_build_and_run_mixed_sequential, ih]

/-! ## Concrete witness environments -/

/-- A small concrete filesystem: one C++ source, one Rust source, one
Python script. -/
def fs0 : String → Option String := fun p =>
  if p = "/w/a.cpp" then some "int main() \x7b return 0; \x7d"
  else if p = "/w/b.rs" then some "fn main() \x7b\x7d"
  else if p = "/w/c.py" then some "print(1)"
  else none

/-- A concrete POSIX environment: identity resolution, the fs0 files, a
tagging stand-in for SHA-256, and a subprocess oracle on which every
command succeeds except running the artifact named a. -/
def env0 : Env :=
  { systemIsWindows := false
    resolve := fun p => p
    fs := fs0
    sha256 := fun s => "#" ++ s
    nowStr := "2025-01-01T00:00:00"
    subprocess := fun cmd _ _ =>
      if cmd = "./a" then SubpOutcome.completed 1 "" ""
      else SubpOutcome.completed 0 "out" ""
    vcvars := none }

/-- A fresh builder with caching and parallelism enabled and an empty
index. -/
def s0 : BuilderState :=
  { cache_enabled := true
    parallel_enabled := true
    python_interpreter := "/usr/bin/python3"
    cache_index := fun _ => none
    saved_index := none }

/-- A scheduler stand-in that is never consulted. -/
def sched0 : Sched := { order := [], laneResult := fun _ => LaneResult.ok true }

/-! ## C3: step-level model of concurrent cache mutation

The source takes no lock (threading is imported, but no Lock object
exists in the file), so the effects of two _update_cache calls racing
on two lanes interleave, constrained only by each call's own program
order and by what CPython makes atomic.  One record call decomposes
into:
- one dict assignment into the shared self.cache_index — a single store
  instruction, atomic under the global interpreter lock;
- the persist in _save_cache_index: open(index_file, 'w'), which
  truncates the shared file and gives the calling thread a fresh file
  object whose own offset starts at 0, followed by json.dump, which
  emits the serialized index through many small incremental writes,
  between any two of which the interpreter may switch threads.

The model reflects this: fopen truncates the shared file and fixes the
text this thread's dump will emit (the serialization of the shared
index as it stands at that moment); each fwrite then transfers the
next chunk of that text into the shared file at this thread's own
offset, overwriting in place whatever another thread has put there.
json.dump actually reads the live dict while writing — a concurrent
mutation mid-dump raises RuntimeError in CPython — so fixing the text
at open time is a simplification that only removes failure modes; the
corruption exhibited below does not depend on it. -/

/-- The two lanes racing on the cache. -/
inductive Tid : Type
  | ta
  | tb
deriving DecidableEq

/-- One primitive effect of a record call on the shared cache: an
atomic dict assignment, a truncating open of the index file, or one
incremental write of (up to) n characters of the pending dump text. -/
inductive DumpOp : Type
  | dictWrite (k : String) (r : CacheRecord)
  | fopen (t : Tid)
  | fwrite (t : Tid) (n : Nat)
deriving DecidableEq

/-- Python dict assignment d[k] = r: replace in place when the key
exists, append otherwise, preserving insertion order (the order
json.dump serializes). -/
def dictInsert (m : List (String × CacheRecord)) (k : String) (r : CacheRecord) :
    List (String × CacheRecord) :=
  match m with
  | [] => [(k, r)]
  | (k2, r2) :: rest =>
    if k2 = k then (k2, r) :: rest else (k2, r2) :: dictInsert rest k r

/-- The serialized text of one index entry (the exact rendering of
json.dump is immaterial to the claims; entries render with their key
and record fields). -/
def serializeEntry (e : String × CacheRecord) : String :=
  "\x22" ++ e.1 ++ "\x22: \x7b\x22hash\x22: \x22" ++ e.2.hash ++
    "\x22, \x22exe_path\x22: \x22" ++ e.2.exe_path ++
    "\x22, \x22timestamp\x22: \x22" ++ e.2.timestamp ++ "\x22\x7d"

/-- The serialized text json.dump emits for the whole index, entries in
dict insertion order. -/
def serializeIndex (m : List (String × CacheRecord)) : List Char :=
  ("\x7b" ++ String.join (List.intersperse ", " (m.map serializeEntry)) ++ "\x7d").data

/-- POSIX write at a file offset: overwrite in place, keeping whatever
lies beyond the written region (each thread writes sequentially from 0
after its own truncation, so its offset never exceeds the current
length). -/
def writeAt (file : List Char) (p : Nat) (data : List Char) : List Char :=
  file.take p ++ data ++ file.drop (p + data.length)

def tidUpdate {B : Type} (f : Tid → B) (t : Tid) (v : B) : Tid → B :=
  fun u => if u = t then v else f u

/-- The shared state the racing record calls touch: the in-memory index
dict, the bytes of index.json, and each thread's file offset and
not-yet-written remainder of its dump text. -/
structure DumpState : Type where
  mem : List (String × CacheRecord)
  file : List Char
  pos : Tid → Nat
  buf : Tid → List Char

def applyDumpOp (st : DumpState) : DumpOp → DumpState
  | .dictWrite k r => { st with mem := dictInsert st.mem k r }
  | .fopen t =>
    { st with
      file := []
      pos := tidUpdate st.pos t 0
      buf := tidUpdate st.buf t (serializeIndex st.mem) }
  | .fwrite t n =>
    let chunk := (st.buf t).take n
    { st with
      file := writeAt st.file (st.pos t) chunk
      pos := tidUpdate st.pos t (st.pos t + chunk.length)
      buf := tidUpdate st.buf t ((st.buf t).drop n) }

def execDumpOps (st : DumpState) : List DumpOp → DumpState
  | [] => st
  | op :: ops => execDumpOps (applyDumpOp st op) ops

/-- The effect trace of one enabled _update_cache call on thread t: the
dict assignment, then the truncating open, then the dump in some
decomposition into write chunks. -/
def recordProgram (env : Env) (t : Tid) (file_paths : List String)
    (exe_path : String) (chunks : List Nat) : List DumpOp :=
  DumpOp.dictWrite (cacheKey env file_paths (pathName exe_path))
      (mkRecord env file_paths exe_path)
    :: DumpOp.fopen t
    :: chunks.map (fun n => DumpOp.fwrite t n)

/-- zs is an interleaving of xs and ys: a shuffle preserving each
thread's own order. -/
inductive Interleave {A : Type} : List A → List A → List A → Prop
  | nil : Interleave [] [] []
  | left {x xs ys zs} : Interleave xs ys zs → Interleave (x :: xs) ys (x :: zs)
  | right {y xs ys zs} : Interleave xs ys zs → Interleave xs (y :: ys) (y :: zs)

theorem interleave_mem_left {A : Type} {xs ys zs : List A}
    (h : Interleave xs ys zs) : ∀ x ∈ xs, x ∈ zs := by
  induction h with
  | nil => intro x hx; cases hx
  | left h ih =>
    intro x2 hx2
    rcases List.mem_cons.mp hx2 with h2 | h2
    · rw [h2]; exact List.mem_cons_self _ _
    · exact List.mem_cons_of_mem _ (ih x2 h2)
  | right h ih =>
    intro x2 hx2
    exact List.mem_cons_of_mem _ (ih x2 hx2)

theorem interleave_mem_right {A : Type} {xs ys zs : List A}
    (h : Interleave xs ys zs) : ∀ y ∈ ys, y ∈ zs := by
  induction h with
  | nil => intro y hy; cases hy
  | left h ih =>
    intro y2 hy2
    exact List.mem_cons_of_mem _ (ih y2 hy2)
  | right h ih =>
    intro y2 hy2
    rcases List.mem_cons.mp hy2 with h2 | h2
    · rw [h2]; exact List.mem_cons_self _ _
    · exact List.mem_cons_of_mem _ (ih y2 h2)

theorem interleave_mem_split {A : Type} {xs ys zs : List A}
    (h : Interleave xs ys zs) : ∀ z ∈ zs, z ∈ xs ∨ z ∈ ys := by
  induction h with
  | nil => intro z hz; cases hz
  | left h ih =>
    intro z hz
    rcases List.mem_cons.mp hz with h2 | h2
    · exact Or.inl (by rw [h2]; exact List.mem_cons_self _ _)
    · rcases ih z h2 with h3 | h3
      · exact Or.inl (List.mem_cons_of_mem _ h3)
      · exact Or.inr h3
  | right h ih =>
    intro z hz
    rcases List.mem_cons.mp hz with h2 | h2
    · exact Or.inr (by rw [h2]; exact List.mem_cons_self _ _)
    · rcases ih z h2 with h3 | h3
      · exact Or.inl h3
      · exact Or.inr (List.mem_cons_of_mem _ h3)

/-- Lookup after a Python dict assignment: the inserted key maps to the
new record, every other key is untouched. -/
theorem dictInsert_lookup (k : String) (r : CacheRecord) :
    ∀ (m : List (String × CacheRecord)) (q : String),
    (dictInsert m k r).lookup q = if q = k then some r else m.lookup q := by
  intro m
  induction m with
  | nil =>
    intro q
    by_cases h : q = k
    · simp [dictInsert, List.lookup, h]
    · have hb : (q == k) = false := by simp [h]
      simp [dictInsert, List.lookup, h, hb]
  | cons e rest ih =>
    intro q
    obtain ⟨k2, r2⟩ := e
    by_cases h2 : k2 = k
    · subst h2
      by_cases hq : q = k2
      · simp [dictInsert, List.lookup, hq]
      · have hb : (q == k2) = false := by simp [hq]
        simp [dictInsert, List.lookup, hq, hb]
    · by_cases hq : q = k2
      · subst hq
        have hqk : ¬ q = k := h2
        simp [dictInsert, List.lookup, h2, hqk]
      · have hb : (q == k2) = false := by simp [hq]
        simp [dictInsert, List.lookup, h2, hq, hb, ih]

/-- The in-memory dict is only changed by dict writes: if a schedule
contains the write of a key (or the entry is already present) and every
write of that key in the schedule stores the same record, the final
lookup yields that record. -/
theorem exec_mem_lookup (k : String) (r : CacheRecord) :
    ∀ (zs : List DumpOp) (st : DumpState),
    (DumpOp.dictWrite k r ∈ zs ∨ st.mem.lookup k = some r) →
    (∀ r2 : CacheRecord, DumpOp.dictWrite k r2 ∈ zs → r2 = r) →
    ((execDumpOps st zs).mem).lookup k = some r := by
  intro zs
  induction zs with
  | nil =>
    intro st hin hall
    rcases hin with hin | hin
    · cases hin
    · exact hin
  | cons op ops ih =>
    intro st hin hall
    have hall2 : ∀ r2 : CacheRecord, DumpOp.dictWrite k r2 ∈ ops → r2 = r :=
      fun r2 h2 => hall r2 (List.mem_cons_of_mem _ h2)
    cases op with
    | dictWrite k2 r2 =>
      by_cases hk2 : k2 = k
      · subst hk2
        have hr2 : r2 = r := hall r2 (List.mem_cons_self _ _)
        subst hr2
        refine ih _ (Or.inr ?_) hall2
        show (dictInsert st.mem k2 r2).lookup k2 = some r2
        rw [dictInsert_lookup]
        simp
      · refine ih _ ?_ hall2
        rcases hin with hin | hin
        · rcases List.mem_cons.mp hin with h2 | h2
          · cases h2
            exact absurd rfl hk2
          · exact Or.inl h2
        · refine Or.inr ?_
          show (dictInsert st.mem k2 r2).lookup k = some r
          rw [dictInsert_lookup]
          rw [if_neg (fun h => hk2 h.symm)]
          exact hin
    | fopen t =>
      refine ih _ ?_ hall2
      rcases hin with hin | hin
      · rcases List.mem_cons.mp hin with h2 | h2
        · cases h2
        · exact Or.inl h2
      · exact Or.inr hin
    | fwrite t n =>
      refine ih _ ?_ hall2
      rcases hin with hin | hin
      · rcases List.mem_cons.mp hin with h2 | h2
        · cases h2
        · exact Or.inl h2
      · exact Or.inr hin

/-- Every dict write occurring in a record-call trace is that call's
own write. -/
theorem recordProgram_dictWrite_elim (env : Env) (t : Tid) (F : List String)
    (p : String) (chunks : List Nat) (k : String) (r : CacheRecord)
    (h : DumpOp.dictWrite k r ∈ recordProgram env t F p chunks) :
    k = cacheKey env F (pathName p) ∧ r = mkRecord env F p := by
  simp only [recordProgram, List.mem_cons, List.mem_map] at h
  rcases h with h | h | ⟨n, _, h⟩
  · injection h with h1 h2
    exact ⟨h1, h2⟩
  · cases h
  · cases h

theorem execDumpOps_append : ∀ (xs ys : List DumpOp) (st : DumpState),
    execDumpOps st (xs ++ ys) = execDumpOps (execDumpOps st xs) ys := by
  intro xs
  induction xs with
  | nil => intro ys st; rfl
  | cons op ops ih =>
    intro ys st
    simp only [List.cons_append, execDumpOps]
    exact ih ys _

theorem writeAt_at_end (P c : List Char) : writeAt P P.length c = P ++ c := by
  unfold writeAt
  rw [List.take_length, List.drop_eq_nil_of_le (by omega), List.append_nil]

/-- Sequential chunked writes of one thread at its own offset append
the written prefix of its pending text to its own previous output. -/
theorem fwrite_run (t : Tid) : ∀ (chunks : List Nat) (st : DumpState) (P R : List Char),
    st.file = P → st.pos t = P.length → st.buf t = R →
    ((execDumpOps st (chunks.map (fun n => DumpOp.fwrite t n))).file =
        P ++ R.take chunks.sum ∧
      (execDumpOps st (chunks.map (fun n => DumpOp.fwrite t n))).mem = st.mem) := by
  intro chunks
  induction chunks with
  | nil =>
    intro st P R hf hp hb
    constructor
    · simp [execDumpOps, hf]
    · rfl
  | cons n rest ih =>
    intro st P R hf hp hb
    simp only [List.map_cons, execDumpOps]
    have hf2 : (applyDumpOp st (DumpOp.fwrite t n)).file = P ++ R.take n := by
      simp only [applyDumpOp, hf, hp, hb]
      exact writeAt_at_end P (R.take n)
    have hp2 : (applyDumpOp st (DumpOp.fwrite t n)).pos t = (P ++ R.take n).length := by
      simp [applyDumpOp, tidUpdate, hp, hb, List.length_append]
    have hb2 : (applyDumpOp st (DumpOp.fwrite t n)).buf t = R.drop n := by
      simp [applyDumpOp, tidUpdate, hb]
    have h := ih (applyDumpOp st (DumpOp.fwrite t n)) (P ++ R.take n) (R.drop n) hf2 hp2 hb2
    constructor
    · rw [h.1, List.sum_cons, List.append_assoc]
      congr 1
      rw [List.take_add]
    · rw [h.2]
      rfl

/-- One record call run without interference: the dict gains the entry
and the file holds the covered prefix of the serialization of the
updated index. -/
theorem recordProgram_solo_run (env : Env) (t : Tid) (F : List String)
    (p : String) (chunks : List Nat) (st : DumpState) :
    (execDumpOps st (recordProgram env t F p chunks)).mem =
      dictInsert st.mem (cacheKey env F (pathName p)) (mkRecord env F p) ∧
    (execDumpOps st (recordProgram env t F p chunks)).file =
      (serializeIndex (dictInsert st.mem (cacheKey env F (pathName p))
        (mkRecord env F p))).take chunks.sum := by
  simp only [recordProgram, execDumpOps]
  have h := fwrite_run t chunks
    (applyDumpOp (applyDumpOp st
      (DumpOp.dictWrite (cacheKey env F (pathName p)) (mkRecord env F p)))
      (DumpOp.fopen t))
    []
    (serializeIndex (dictInsert st.mem (cacheKey env F (pathName p)) (mkRecord env F p)))
    rfl (by simp [applyDumpOp, tidUpdate]) (by simp [applyDumpOp, tidUpdate])
  constructor
  · rw [h.2]
    rfl
  · rw [h.1]
    rfl

/-- Coherence with the sequential translation: the dict assignment of
one record call changes lookups of the insertion-ordered dict exactly
as the function update inside _update_cache changes the in-memory
index. -/
theorem recordProgram_write_matches_update (env : Env) (s : BuilderState)
    (F : List String) (p : String) (m : List (String × CacheRecord))
    (hen : s.cache_enabled = true)
    (hagree : ∀ q2 : String, m.lookup q2 = s.cache_index q2) (q : String) :
    (dictInsert m (cacheKey env F (pathName p)) (mkRecord env F p)).lookup q =
      (_update_cache env s F p).cache_index q := by
  rw [dictInsert_lookup]
  by_cases hq : q = cacheKey env F (pathName p) <;>
    simp [_update_cache, _save_cache_index, hen, hq, hagree q]

/-- The cache key of the record call for artifact /w/n1 over /w/f.cpp
in env0. -/
def kA1 : String := cacheKey env0 ["/w/f.cpp"] (pathName "/w/n1")

def rA1 : CacheRecord := mkRecord env0 ["/w/f.cpp"] "/w/n1"

def kB1 : String := cacheKey env0 ["/w/f.cpp"] (pathName "/w/n2")

def rB1 : CacheRecord := mkRecord env0 ["/w/f.cpp"] "/w/n2"

/-- The record-call trace for /w/n1 on lane A, its dump split into a
one-character write followed by the remainder. -/
def progA1 : List DumpOp := recordProgram env0 Tid.ta ["/w/f.cpp"] "/w/n1" [1, 400]

/-- The record-call trace for /w/n2 on lane B, its dump in one write. -/
def progB1 : List DumpOp := recordProgram env0 Tid.tb ["/w/f.cpp"] "/w/n2" [400]

/-- A racing schedule: lane A stores its dict entry, truncates the
index file and emits one character of its one-entry dump; lane B then
stores its entry, truncates again and dumps both entries in full; last,
lane A's remaining write lands at its stale offset 1 and smashes the
middle of B's complete dump. -/
def racySchedule : List DumpOp :=
  [DumpOp.dictWrite kA1 rA1, DumpOp.fopen Tid.ta, DumpOp.fwrite Tid.ta 1,
    DumpOp.dictWrite kB1 rB1, DumpOp.fopen Tid.tb, DumpOp.fwrite Tid.tb 400,
    DumpOp.fwrite Tid.ta 400]

/-- The initial shared state: empty dict, empty index file. -/
def dumpSt0 : DumpState :=
  { mem := [], file := [], pos := fun _ => 0, buf := fun _ => [] }

/-- C3, counterexample: the claim says every cache mutation is a fully
serialized lock-guarded read-modify-write, so that after two concurrent
record calls for distinct keys both entries are present in the
persisted index.  The source takes no lock, so racySchedule — a legal
interleaving of the two calls' effect traces that is not either serial
execution — is reachable; running it leaves both entries in the shared
in-memory dict, yet the bytes of index.json are not the serialization
of any index holding the two entries: lane A's stale-offset write has
corrupted lane B's complete dump, an on-disk lost update. -/
theorem C3_counterexample :
    Interleave progA1 progB1 racySchedule ∧
    ¬ (racySchedule = progA1 ++ progB1 ∨ racySchedule = progB1 ++ progA1) ∧
    (execDumpOps dumpSt0 racySchedule).mem = [(kA1, rA1), (kB1, rB1)] ∧
    (execDumpOps dumpSt0 racySchedule).file ≠
      serializeIndex [(kA1, rA1), (kB1, rB1)] ∧
    (execDumpOps dumpSt0 racySchedule).file ≠
      serializeIndex [(kB1, rB1), (kA1, rA1)] := by
  refine ⟨?_, by decide, by decide, by decide, by decide⟩
  exact Interleave.left (Interleave.left (Interleave.left (Interleave.right
    (Interleave.right (Interleave.right (Interleave.left Interleave.nil))))))

/-- C3 (amended): no lock serializes cache mutations.  What survives of
the claim: the dict assignment is a single atomic store, so for two
record calls with distinct keys racing in any interleaving the shared
in-memory index always ends up holding both entries — the in-memory
index loses no update; and when the two calls do not interleave at all
(one runs entirely before the other, the schedule a mutual-exclusion
lock would enforce) and the dump chunks cover the text, the persisted
file is exactly the serialization of the index holding both entries.
For interleaved persists no such disk guarantee exists (see the
counterexample). -/
theorem C3_unlocked_record_inmemory_safe_disk_serial
    (env : Env) (F1 F2 : List String) (p1 p2 : String)
    (chunksA chunksB : List Nat) (st : DumpState)
    (hk : cacheKey env F1 (pathName p1) ≠ cacheKey env F2 (pathName p2)) :
    (∀ zs : List DumpOp,
      Interleave (recordProgram env Tid.ta F1 p1 chunksA)
        (recordProgram env Tid.tb F2 p2 chunksB) zs →
      ((execDumpOps st zs).mem).lookup (cacheKey env F1 (pathName p1)) =
          some (mkRecord env F1 p1) ∧
        ((execDumpOps st zs).mem).lookup (cacheKey env F2 (pathName p2)) =
          some (mkRecord env F2 p2)) ∧
    ((serializeIndex (dictInsert
          (dictInsert st.mem (cacheKey env F1 (pathName p1)) (mkRecord env F1 p1))
          (cacheKey env F2 (pathName p2)) (mkRecord env F2 p2))).length ≤
        chunksB.sum →
      (execDumpOps st (recordProgram env Tid.ta F1 p1 chunksA ++
          recordProgram env Tid.tb F2 p2 chunksB)).file =
        serializeIndex (dictInsert
          (dictInsert st.mem (cacheKey env F1 (pathName p1)) (mkRecord env F1 p1))
          (cacheKey env F2 (pathName p2)) (mkRecord env F2 p2))) := by
  constructor
  · intro zs hzs
    have hinA : DumpOp.dictWrite (cacheKey env F1 (pathName p1))
        (mkRecord env F1 p1) ∈ zs :=
      interleave_mem_left hzs _ (List.mem_cons_self _ _)
    have hinB : DumpOp.dictWrite (cacheKey env F2 (pathName p2))
        (mkRecord env F2 p2) ∈ zs :=
      interleave_mem_right hzs _ (List.mem_cons_self _ _)
    constructor
    · refine exec_mem_lookup _ _ zs st (Or.inl hinA) ?_
      intro r2 h2
      rcases interleave_mem_split hzs _ h2 with h3 | h3
      · exact (recordProgram_dictWrite_elim env Tid.ta F1 p1 chunksA _ _ h3).2
      · exact absurd (recordProgram_dictWrite_elim env Tid.tb F2 p2 chunksB _ _ h3).1 hk
    · refine exec_mem_lookup _ _ zs st (Or.inl hinB) ?_
      intro r2 h2
      rcases interleave_mem_split hzs _ h2 with h3 | h3
      · exact absurd (recordProgram_dictWrite_elim env Tid.ta F1 p1 chunksA _ _ h3).1
          (Ne.symm hk)
      · exact (recordProgram_dictWrite_elim env Tid.tb F2 p2 chunksB _ _ h3).2
  · intro hcov
    rw [execDumpOps_append]
    have hA := recordProgram_solo_run env Tid.ta F1 p1 chunksA st
    have hB := recordProgram_solo_run env Tid.tb F2 p2 chunksB
      (execDumpOps st (recordProgram env Tid.ta F1 p1 chunksA))
    rw [hB.2, hA.1]
    exact List.take_of_length_le hcov

set_option maxRecDepth 16000 in
/-- C3 witness: the amended theorem at concrete inputs: the in-memory
conclusion instantiated with the serial schedule, and the exact
persisted file for the serial schedule under a covering chunking. -/
theorem C3_witness :
    (((execDumpOps dumpSt0 (progA1 ++ progB1)).mem).lookup kA1 = some rA1 ∧
      ((execDumpOps dumpSt0 (progA1 ++ progB1)).mem).lookup kB1 = some rB1) ∧
    (execDumpOps dumpSt0 (progA1 ++ progB1)).file =
      serializeIndex (dictInsert (dictInsert dumpSt0.mem kA1 rA1) kB1 rB1) := by
  have h := C3_unlocked_record_inmemory_safe_disk_serial env0 ["/w/f.cpp"]
    ["/w/f.cpp"] "/w/n1" "/w/n2" [1, 400] [400] dumpSt0 (by decide)
  refine ⟨h.1 (progA1 ++ progB1) ?_, h.2 (by decide)⟩
  exact Interleave.left (Interleave.left (Interleave.left (Interleave.left
    (Interleave.right (Interleave.right (Interleave.right Interleave.nil))))))

/-! ## C1: when the cache record is written relative to the run -/

/-- C1, counterexample: the claim says a cache record is written only
after the produced artifact has run successfully, and never when the
run exits non-zero.  In env0 the C++ compile of /w/a.cpp succeeds and
the subsequent run of ./a exits 1, so build_and_run_cpp reports
failure — yet the cache record for the key is present in the state
after the call: the source calls _update_cache right after the compile
succeeds and before running the artifact. -/
theorem C1_counterexample :
    (build_and_run_cpp env0 s0 ["/w/a.cpp"] none).1 = false ∧
    ((build_and_run_cpp env0 s0 ["/w/a.cpp"] none).2.cache_index
        (cacheKey env0 ["/w/a.cpp"] "a")).isSome = true := by
  decide

/-- C1 (amended): in a cache-missing single-toolchain build of an
executable (C++ or Rust lane) with caching enabled, the cache record
for the key is written exactly when the compile step succeeds, before
the artifact is run, so the run's exit status has no effect on the
recorded entry; when the compile step fails the cache state is left
unchanged. -/
theorem C1_cache_recorded_on_compile_success (env : Env) (s : BuilderState)
    (henab : s.cache_enabled = true) :
    (∀ (src_files : List String) (en : Option String),
      let src_paths := src_files.map env.resolve
      let exe_name := en.getD (defaultExeName env (src_paths.headD ""))
      let exe_path := pathJoin (pathParent (src_paths.headD "")) exe_name
      let build_cwd := pathParent (src_paths.headD "")
      src_paths.all (pathExists env) = true →
      _is_cached env s src_paths exe_name = false →
      ((_compile_cpp_files env src_paths exe_name build_cwd = true →
          (build_and_run_cpp env s src_files en).2.cache_index
              (cacheKey env src_paths (pathName exe_path)) =
            some (mkRecord env src_paths exe_path)) ∧
        (_compile_cpp_files env src_paths exe_name build_cwd = false →
          (build_and_run_cpp env s src_files en).2 = s))) ∧
    (∀ (src_file : String) (en : Option String) (optimization : String),
      let src_path := env.resolve src_file
      let exe_name := en.getD (defaultExeName env src_path)
      let exe_path := pathJoin (pathParent src_path) exe_name
      let build_cwd := pathParent src_path
      let opt_flags := if optimization = "release" then "-C opt-level=3" else ""
      let build_cmd := "rustc " ++ opt_flags ++ " \"" ++ pathName src_path ++
        "\" -o \"" ++ exe_name ++ "\""
      pathExists env src_path = true →
      _is_cached env s [src_path] exe_name = false →
      ((((_run_command env build_cmd (some build_cwd)).1 == 0) = true →
          (build_and_run_rust env s src_file en optimization).2.cache_index
              (cacheKey env [src_path] (pathName exe_path)) =
            some (mkRecord env [src_path] exe_path)) ∧
        (((_run_command env build_cmd (some build_cwd)).1 == 0) = false →
          (build_and_run_rust env s src_file en optimization).2 = s))) := by
  constructor
  · intro src_files en
    dsimp only
    intro hex hmiss
    constructor
    · intro hcomp
      simp only [build_and_run_cpp, hex, hmiss, hcomp, if_true, if_false,
        Bool.false_eq_true, ite_true, ite_false]
      simp [_update_cache, _save_cache_index, henab]
    · intro hcomp
      simp only [build_and_run_cpp, hex, hmiss, hcomp, if_true, if_false,
        Bool.false_eq_true, ite_true, ite_false]
  · intro src_file en optimization
    dsimp only
    intro hex hmiss
    constructor
    · intro hcomp
      simp only [build_and_run_rust, hex, hmiss, hcomp, if_true, if_false,
        Bool.false_eq_true, ite_true, ite_false]
      simp [_update_cache, _save_cache_index, henab]
    · intro hcomp
      simp only [build_and_run_rust, hex, hmiss, hcomp, if_true, if_false,
        Bool.false_eq_true, ite_true, ite_false]

/-- C1 witness: the amended theorem at a concrete miss in env0, where
the C++ compile succeeds. -/
theorem C1_witness :
    (build_and_run_cpp env0 s0 ["/w/a.cpp"] none).2.cache_index
        (cacheKey env0 ["/w/a.cpp"] (pathName (pathJoin (pathParent "/w/a.cpp")
          (defaultExeName env0 "/w/a.cpp")))) =
      some (mkRecord env0 ["/w/a.cpp"]
        (pathJoin (pathParent "/w/a.cpp") (defaultExeName env0 "/w/a.cpp"))) := by
  have h := (C1_cache_recorded_on_compile_success env0 s0 rfl).1 ["/w/a.cpp"] none
  exact (h (by decide) (by decide)).1 (by decide)

/-! ## C2: validity check semantics -/

/-- C2: with caching enabled, the source validity check _is_cached
coincides on every key (artifact name plus sorted resolved input
paths) with isValidSpec, the predicate transcribed from the spec: false
when no record exists for the key, false when the recorded artifact
path no longer exists, false when the recomputed digest over the
current input files differs from the stored digest, and true
otherwise. -/
theorem C2_is_cached_matches_spec (env : Env) (s : BuilderState)
    (file_paths : List String) (exe_name : String)
    (henab : s.cache_enabled = true) :
    _is_cached env s file_paths exe_name = isValidSpec env s file_paths exe_name := by
  unfold _is_cached isValidSpec
  rw [henab]
  cases s.cache_index (cacheKey env file_paths exe_name) with
  | none => rfl
  | some info =>
    by_cases hh : info.hash = _compute_files_hash env file_paths <;>
      cases hpe : pathExists env info.exe_path <;>
      simp [hh, hpe]

/-- C2 witness: the refinement theorem at a concrete enabled builder
holding one record whose artifact exists and whose stored digest
matches, together with the evaluated verdicts on a present and on an
absent key. -/
theorem C2_witness :
    _is_cached env0
        { s0 with cache_index := fun q =>
            if q = cacheKey env0 ["/w/a.cpp"] "a" then
              some (mkRecord env0 ["/w/a.cpp"] "/w/a") else none }
        ["/w/a.cpp"] "a" =
      isValidSpec env0
        { s0 with cache_index := fun q =>
            if q = cacheKey env0 ["/w/a.cpp"] "a" then
              some (mkRecord env0 ["/w/a.cpp"] "/w/a") else none }
        ["/w/a.cpp"] "a" ∧
    _is_cached env0 s0 ["/w/a.cpp"] "a" = isValidSpec env0 s0 ["/w/a.cpp"] "a" :=
  ⟨C2_is_cached_matches_spec env0 _ ["/w/a.cpp"] "a" rfl,
    C2_is_cached_matches_spec env0 s0 ["/w/a.cpp"] "a" rfl⟩

/-! ## C5: key independence of record -/

/-- C5: recording a build (one _update_cache call, whose key name is
exe_path.name) leaves the validity verdict of every key other than the
written one unchanged; in particular, for the same input set F, the
verdict of every key with a different artifact name is unchanged,
because the key strings differ whenever the names differ. -/
theorem C5_key_independence (env : Env) (s : BuilderState)
    (F : List String) (exe_path : String) :
    (∀ (F2 : List String) (name2 : String),
      cacheKey env F2 name2 ≠ cacheKey env F (pathName exe_path) →
      _is_cached env (_update_cache env s F exe_path) F2 name2 =
        _is_cached env s F2 name2) ∧
    (∀ name2 : String, name2 ≠ pathName exe_path →
      _is_cached env (_update_cache env s F exe_path) F name2 =
        _is_cached env s F name2) := by
  have frame : ∀ (F2 : List String) (name2 : String),
      cacheKey env F2 name2 ≠ cacheKey env F (pathName exe_path) →
      _is_cached env (_update_cache env s F exe_path) F2 name2 =
        _is_cached env s F2 name2 := by
    intro F2 name2 hne
    by_cases hc : s.cache_enabled = false
    · simp [_update_cache, hc]
    · simp [_update_cache, _save_cache_index, _is_cached, hc, hne]
  refine ⟨frame, ?_⟩
  intro name2 hname
  apply frame
  intro hkey
  apply hname
  unfold cacheKey at hkey
  have h1 : name2 ++ "::" = pathName exe_path ++ "::" := by
    have := strAppend_cancel_right (name2 ++ "::") (pathName exe_path ++ "::")
      (cacheKeyBase env F) (by rw [String.append_assoc, String.append_assoc] at hkey ⊢; exact hkey)
    exact this
  exact strAppend_cancel_right name2 (pathName exe_path) "::" h1

/-- C5 witness: recording for artifact name n1 over /w/f.cpp does not
change the validity verdict of the key with name n2 over the same input
set, nor of an unrelated key. -/
theorem C5_witness :
    _is_cached env0 (_update_cache env0 s0 ["/w/f.cpp"] "/w/n1") ["/w/f.cpp"] "n2" =
      _is_cached env0 s0 ["/w/f.cpp"] "n2" ∧
    _is_cached env0 (_update_cache env0 s0 ["/w/f.cpp"] "/w/n1") ["/w/other.rs"] "x" =
      _is_cached env0 s0 ["/w/other.rs"] "x" :=
  ⟨(C5_key_independence env0 s0 ["/w/f.cpp"] "/w/n1").2 "n2" (by decide),
    (C5_key_independence env0 s0 ["/w/f.cpp"] "/w/n1").1 ["/w/other.rs"] "x" (by decide)⟩

/-! ## C6: process runner totality and synthetic failures -/

/-- C6: for every command and working directory (with the fixed
300-second timeout passed to the oracle), _run_command returns a
structured triple in all three oracle outcomes: a timeout becomes the
synthetic exit code 1 with the timeout-classifying message, a
spawn-level failure becomes the synthetic exit code 1 with the
underlying error text in the stderr slot, and a completed process
passes its triple through unchanged; the synthetic code 1 is non-zero. -/
theorem C6_run_command_structured (env : Env) (cmd : String) (cwd : Option String) :
    (env.subprocess cmd cwd 300 = SubpOutcome.timedOut →
      _run_command env cmd cwd = (1, "", timeoutMessage)) ∧
    (∀ msg, env.subprocess cmd cwd 300 = SubpOutcome.failed msg →
      _run_command env cmd cwd = (1, "", spawnErrorText ++ msg)) ∧
    (∀ c o e, env.subprocess cmd cwd 300 = SubpOutcome.completed c o e →
      _run_command env cmd cwd = (c, o, e)) ∧
    (1 : Int) ≠ 0 := by
  refine ⟨?_, ?_, ?_, by decide⟩
  · intro h; simp [_run_command, h]
  · intro msg h; simp [_run_command, h]
  · intro c o e h; simp [_run_command, h]

/-- An environment whose subprocess oracle always times out. -/
def envTimeout : Env :=
  { env0 with subprocess := fun _ _ _ => SubpOutcome.timedOut }

/-- An environment whose subprocess oracle always fails to spawn. -/
def envSpawnFail : Env :=
  { env0 with subprocess := fun _ _ _ =>
      SubpOutcome.failed "No such file or directory" }

/-- C6 witness: the theorem applied in a timing-out environment, in a
spawn-failing environment, and in env0 where the command completes. -/
theorem C6_witness :
    _run_command envTimeout "g++ x.cpp" (some "/w") = (1, "", timeoutMessage) ∧
    _run_command envSpawnFail "g++ x.cpp" (some "/w") =
      (1, "", spawnErrorText ++ "No such file or directory") ∧
    _run_command env0 "g++ x.cpp" (some "/w") = (0, "out", "") :=
  ⟨(C6_run_command_structured envTimeout "g++ x.cpp" (some "/w")).1 rfl,
    (C6_run_command_structured envSpawnFail "g++ x.cpp" (some "/w")).2.1
      "No such file or directory" rfl,
    (C6_run_command_structured env0 "g++ x.cpp" (some "/w")).2.2.1 0 "out" "" rfl⟩

/-! ## C4: mixed report completeness and joining -/

/-- C4: for a mixed call with G recognized toolchain groups (G at least
one), the parallel report holds exactly one outcome per group — the
completion order, being the as_completed order over the G submitted
futures, is a permutation of the group tags, an exception becoming a
recorded failure rather than a dropped lane — and the joined flag is the
conjunction of the G lane outcomes; the sequential mode likewise yields
exactly one outcome per group, in group order, joined by the same
conjunction. -/
theorem C4_mixed_report_complete (env : Env) (s : BuilderState)
    (groups : List (Lang × List String)) (sched : Sched)
    (_hG : groups ≠ [])
    (hperm : List.Perm sched.order (groups.map Prod.fst)) :
    ((_build_and_run_mixed_parallel sched).1.length = groups.length) ∧
    List.Perm ((_build_and_run_mixed_parallel sched).1.map Prod.fst)
      (groups.map Prod.fst) ∧
    (∀ l, l ∈ groups.map Prod.fst →
      (l, laneBool (sched.laneResult l)) ∈ (_build_and_run_mixed_parallel sched).1) ∧
    ((_build_and_run_mixed_parallel sched).2 =
      (groups.map Prod.fst).all (fun l => laneBool (sched.laneResult l))) ∧
    (((_build_and_run_mixed_sequential env s groups).1.map Prod.fst) =
      groups.map Prod.fst) ∧
    (_print_mixed_results (_build_and_run_mixed_sequential env s groups).1 =
      ((_build_and_run_mixed_sequential env s groups).1).all (fun r => r.2)) := by
  have hfst : (_build_and_run_mixed_parallel sched).1.map Prod.fst = sched.order := by
    simp only [_build_and_run_mixed_parallel, List.map_map]
    exact List.map_id _
  refine ⟨?_, ?_, ?_, ?_, ?_, ?_⟩
  · have := congrArg List.length hfst
    simp only [List.length_map] at this
    rw [this, hperm.length_eq, List.length_map]
  · rw [hfst]; exact hperm
  · intro l hl
    have hlo : l ∈ sched.order := hperm.mem_iff.mpr hl
    simpa [_build_and_run_mixed_parallel] using
      List.mem_map_of_mem (fun l => (l, laneBool (sched.laneResult l))) hlo
  · rw [show (_build_and_run_mixed_parallel sched).2 =
        _print_mixed_results (_build_and_run_mixed_parallel sched).1 from rfl,
      print_mixed_results_eq_all]
    have : ((_build_and_run_mixed_parallel sched).1).all (fun r => r.2) =
        sched.order.all (fun l => laneBool (sched.laneResult l)) := by
      simp only [_build_and_run_mixed_parallel]
      rw [all_map_gen]
    rw [this]
    exact perm_all _ hperm
  · exact seq_results_fst groups env s
  · exact print_mixed_results_eq_all _

/-- The concrete groups of one mixed call: the grouping of a C++ source
and a Rust source from fs0. -/
def groupsW : List (Lang × List String) :=
  _group_files_by_language ["/w/a.cpp", "/w/b.rs"]

/-- A concrete scheduler: the Rust future completes first and raises,
the C++ future completes second with success. -/
def schedW : Sched :=
  { order := [Lang.rust, Lang.cpp]
    laneResult := fun l =>
      match l with
      | Lang.rust => LaneResult.exn "boom"
      | _ => LaneResult.ok true }

/-- C4 witness: the theorem at the concrete two-group call under
schedW, with the evaluated report. -/
theorem C4_witness :
    ((_build_and_run_mixed_parallel schedW).1.length = groupsW.length) ∧
    ((_build_and_run_mixed_parallel schedW).2 =
      (groupsW.map Prod.fst).all (fun l => laneBool (schedW.laneResult l))) := by
  have h := C4_mixed_report_complete env0 s0 groupsW schedW (by decide) (by decide)
  exact ⟨h.1, h.2.2.2.1⟩

/-! ## C7: a missing input file and the sibling lanes -/

/-- C7, counterexample: the claim says that when one requested source
file does not exist only the lane containing it is aborted and the
sibling toolchain lanes still build and appear in the final report.  In
env0 the C++ source /w/a.cpp exists and /w/missing.rs does not; the
mixed call over both returns the overall failure with an empty results
mapping: no lane — including the viable C++ sibling — is dispatched or
reported. -/
theorem C7_counterexample :
    pathExists env0 "/w/a.cpp" = true ∧
    pathExists env0 "/w/missing.rs" = false ∧
    build_and_run_mixed env0 sched0 s0 ["/w/a.cpp", "/w/missing.rs"] none =
      ([], false) := by
  decide

/-- C7 (amended): if any requested source file of a mixed call does not
exist, the whole call is aborted up front: it returns False with an
empty per-lane report, before any grouping or lane dispatch, so sibling
toolchains are not built either. -/
theorem C7_missing_input_aborts_whole_call (env : Env) (sched : Sched)
    (s : BuilderState) (file_paths : List String) (parallel : Option Bool)
    (f : String) (hf : f ∈ file_paths)
    (hmiss : pathExists env (env.resolve f) = false) :
    build_and_run_mixed env sched s file_paths parallel = ([], false) := by
  have hall : (file_paths.map env.resolve).all (pathExists env) = false := by
    rw [List.all_eq_false]
    exact ⟨env.resolve f, List.mem_map_of_mem env.resolve hf, by simp [hmiss]⟩
  simp [build_and_run_mixed, hall]

/-- C7 witness: the amended theorem at a concrete call containing a
missing Rust source next to an existing C++ source. -/
theorem C7_witness :
    build_and_run_mixed env0 sched0 s0 ["/w/a.cpp", "/w/missing.rs"] (some true) =
      ([], false) :=
  C7_missing_input_aborts_whole_call env0 sched0 s0 ["/w/a.cpp", "/w/missing.rs"]
    (some true) "/w/missing.rs" (by decide) (by decide)

/-! ## C8: digest order-invariance under canonical sorting -/

/-- C8: for every environment (hence every fixed file contents) and any
two input files a and b, digesting the list a-then-b and the list
b-then-a yields the same value, because _compute_files_hash sorts the
paths by their resolved absolute form before folding the per-file
hashes; when the two resolved forms coincide the two files have the
same contents, so even then the two orders agree. -/
theorem C8_digest_order_invariant (env : Env) (a b : String) :
    _compute_files_hash env [a, b] = _compute_files_hash env [b, a] := by
  unfold _compute_files_hash
  cases h1 : strLe (env.resolve a) (env.resolve b) <;>
    cases h2 : strLe (env.resolve b) (env.resolve a)
  · rcases strLe_total (env.resolve a) (env.resolve b) with h | h
    · rw [h] at h1; cases h1
    · rw [h] at h2; cases h2
  · simp [pySorted, insertByKey, h1, h2]
  · simp [pySorted, insertByKey, h1, h2]
  · have heq : env.resolve a = env.resolve b := strLe_antisymm _ _ h1 h2
    simp only [pySorted, List.foldr, insertByKey, h1, h2, if_true, ite_true]
    simp [List.filterMap, _compute_file_hash, heq]

/-! ## C9: the Rust group beyond its first file -/

/-- C9: for a Rust toolchain group of a mixed call, in the sequential
loop and in the parallel submission only the first file of the group is
handed to build_and_run_rust (with the release optimization): the lane
call is unchanged by replacing, or dropping, every file after the
first, and equals the single-toolchain Rust build of the first file. -/
theorem C9_rust_lane_first_file_only (env : Env) (s : BuilderState)
    (f : String) (rest rest2 : List String) :
    dispatchLane env s Lang.rust (f :: rest) =
      dispatchLane env s Lang.rust (f :: rest2) ∧
    dispatchLane env s Lang.rust (f :: rest) =
      build_and_run_rust env s f none "release" ∧
    parallelSubmittedTask env s Lang.rust (f :: rest) =
      parallelSubmittedTask env s Lang.rust (f :: rest2) ∧
    parallelSubmittedTask env s Lang.rust (f :: rest) =
      build_and_run_rust env s f none "release" :=
  ⟨rfl, rfl, rfl, rfl⟩

/-! ## C10: everything is inert when caching is disabled -/

/-- C10: when the builder has caching disabled, every validity check
returns false, recording is the identity on the builder state (so the
in-memory index and the persisted index file are never touched), saving
the index is the identity as well, and the C++ and Rust build routines
ignore whatever the cache index holds — every request takes the
compile-and-run path — and leave the state unchanged. -/
theorem C10_cache_disabled (env : Env) (s : BuilderState)
    (hdis : s.cache_enabled = false) :
    (∀ (file_paths : List String) (exe_name : String),
      _is_cached env s file_paths exe_name = false) ∧
    (∀ (file_paths : List String) (exe_path : String),
      _update_cache env s file_paths exe_path = s) ∧
    _save_cache_index s = s ∧
    (∀ (src_files : List String) (en : Option String) (i i2 : CacheIndex),
      (build_and_run_cpp env { s with cache_index := i } src_files en).1 =
        (build_and_run_cpp env { s with cache_index := i2 } src_files en).1) ∧
    (∀ (src_files : List String) (en : Option String),
      (build_and_run_cpp env s src_files en).2 = s) ∧
    (∀ (src_file : String) (en : Option String) (opt : String) (i i2 : CacheIndex),
      (build_and_run_rust env { s with cache_index := i } src_file en opt).1 =
        (build_and_run_rust env { s with cache_index := i2 } src_file en opt).1) ∧
    (∀ (src_file : String) (en : Option String) (opt : String),
      (build_and_run_rust env s src_file en opt).2 = s) := by
  refine ⟨?_, ?_, ?_, ?_, ?_, ?_, ?_⟩
  · intro file_paths exe_name
    simp [_is_cached, hdis]
  · intro file_paths exe_path
    simp [_update_cache, hdis]
  · simp [_save_cache_index, hdis]
  · intro src_files en i i2
    obtain ⟨ce, pe, pi, ci, si⟩ := s
    have hce : ce = false := hdis
    subst hce
    simp [build_and_run_cpp, _is_cached, _update_cache, _save_cache_index,
      apply_ite Prod.fst]
  · intro src_files en
    obtain ⟨ce, pe, pi, ci, si⟩ := s
    have hce : ce = false := hdis
    subst hce
    simp [build_and_run_cpp, _is_cached, _update_cache, _save_cache_index,
      apply_ite Prod.snd, ite_self]
  · intro src_file en opt i i2
    obtain ⟨ce, pe, pi, ci, si⟩ := s
    have hce : ce = false := hdis
    subst hce
    simp [build_and_run_rust, _is_cached, _update_cache, _save_cache_index,
      apply_ite Prod.fst]
  · intro src_file en opt
    obtain ⟨ce, pe, pi, ci, si⟩ := s
    have hce : ce = false := hdis
    subst hce
    simp [build_and_run_rust, _is_cached, _update_cache, _save_cache_index,
      apply_ite Prod.snd, ite_self]

/-- A concrete builder with caching disabled, holding a nonempty index
to make the inertness visible. -/
def sDisabled : BuilderState :=
  { cache_enabled := false
    parallel_enabled := true
    python_interpreter := "/usr/bin/python3"
    cache_index := fun q =>
      if q = cacheKey env0 ["/w/a.cpp"] "a" then
        some (mkRecord env0 ["/w/a.cpp"] "/w/a") else none
    saved_index := none }

/-- C10 witness: the theorem at the concrete disabled builder. -/
theorem C10_witness :
    _is_cached env0 sDisabled ["/w/a.cpp"] "a" = false ∧
    _update_cache env0 sDisabled ["/w/a.cpp"] "/w/a" = sDisabled ∧
    _save_cache_index sDisabled = sDisabled ∧
    (build_and_run_cpp env0 sDisabled ["/w/a.cpp"] none).2 = sDisabled := by
  have h := C10_cache_disabled env0 sDisabled rfl
  exact ⟨h.1 ["/w/a.cpp"] "a", h.2.1 ["/w/a.cpp"] "/w/a", h.2.2.1,
    h.2.2.2.2.1 ["/w/a.cpp"] none⟩
